import Mathlib

/-!
Verification of the command-normalization and inventory-indexing layer of
`PrototypeEffort/flask_server/llm_server.py`.

The embedding models Python values and operations shallowly:

* JSON values are `JValue`; Python dicts are insertion-ordered association
  lists (`Dict`), with `dictInsert` giving the in-place-overwrite semantics of
  a dict literal with `**` unpacking and `dictSetdefault` giving
  `dict.setdefault`.
* Python string operations used by the source (`str.strip`, `str.strip('"')`,
  `str.split(',', 1)`, `str.split(',')[0]`, `str.lower`, `str.upper`,
  `str.replace('_furniture', '')`) are implemented character-list-wise with
  the same semantics (for the ASCII inputs the server handles).
* `load_inventory` (source lines 28-51) is modelled over a `ReadOutcome`: the
  lines actually delivered by the file collaborator before either a clean end
  of file or a raised exception; the surrounding `try/except` keeps whatever
  was built so far and reports the error instead of raising.
* The `/api/process_command` handler (source lines 181-280) is modelled with
  the external reasoning collaborator as an oracle parameter taking the
  inventory context string and the user command, returning either a raised
  failure or an `LLMResponse` (stop reason plus content blocks).  The global
  `INVENTORY` is threaded explicitly; the handler never writes it.
-/

/-- JSON-like values exchanged with the client and the reasoning collaborator. -/
inductive JValue where
  | str (s : String)
  | int (n : Int)
  | num (q : Rat)
  | bool (b : Bool)
deriving DecidableEq

/-- Python dict of JSON values, as an insertion-ordered association list. -/
abbrev Dict := List (String × JValue)

/-- Python `d.get(k)`: the value of the first entry with key `k`, if any. -/
def dictGet (d : Dict) (k : String) : Option JValue :=
  match d with
  | [] => none
  | (k1, v) :: rest => if k1 = k then some v else dictGet rest k

/-- Python `k in d`. -/
def dictHasKey (d : Dict) (k : String) : Bool :=
  (dictGet d k).isSome

/-- Keys of a dict, in order. -/
def dictKeys (d : Dict) : List String :=
  d.map Prod.fst

/-- Well-formedness of the association-list model: a Python dict never holds
two entries with the same key. -/
abbrev NodupKeys (d : Dict) : Prop :=
  (dictKeys d).Nodup

/-- Python `d[k] = v`: overwrite the slot of `k` in place if one exists,
append a new slot otherwise. -/
def dictInsert (d : Dict) (k : String) (v : JValue) : Dict :=
  match d with
  | [] => [(k, v)]
  | (k1, w) :: rest => if k1 = k then (k1, v) :: rest else (k1, w) :: dictInsert rest k v

/-- Python `d.setdefault(k, v)` (source lines 262-263): add only when absent. -/
def dictSetdefault (d : Dict) (k : String) (v : JValue) : Dict :=
  if dictHasKey d k then d else d ++ [(k, v)]

/-- Python `{**base, **args}`: each entry of `args` written over `base` in
order (source lines 257-260). -/
def dictMerge (base args : Dict) : Dict :=
  args.foldl (fun d p => dictInsert d p.1 p.2) base

/-- Whitespace characters removed by Python `str.strip()`. -/
def pyIsSpace (c : Char) : Bool :=
  c == ' ' || c == '\t' || c == '\n' || c == '\r' || c == '\x0b' || c == '\x0c'

/-- Drop the longest run of characters satisfying `p` from the end. -/
def stripEnd (p : Char → Bool) (l : List Char) : List Char :=
  (l.reverse.dropWhile p).reverse

/-- Drop runs of characters satisfying `p` from both ends, the semantics of
Python `str.strip(chars)`. -/
def stripBoth (p : Char → Bool) (l : List Char) : List Char :=
  stripEnd p (l.dropWhile p)

/-- Python `s.strip()`. -/
def pyStrip (s : String) : String :=
  String.mk (stripBoth pyIsSpace s.data)

/-- Python `s.strip('"')` (source line 37): every leading and every trailing
quote character is removed, paired or not. -/
def pyStripQuotes (s : String) : String :=
  String.mk (stripBoth (fun c => c == '"') s.data)

/-- Split at the first comma: the text before it and, when a comma exists,
the text after it. -/
def splitCommaOnce : List Char → List Char × Option (List Char)
  | [] => ([], none)
  | c :: cs =>
    if c = ',' then ([], some cs)
    else
      let r := splitCommaOnce cs
      (c :: r.1, r.2)

/-- Python `s.split(',', 1)` (source line 34): one part when `s` has no
comma, two parts otherwise. -/
def pySplitFirst (s : String) : List String :=
  match splitCommaOnce s.data with
  | (pre, none) => [String.mk pre]
  | (pre, some post) => [String.mk pre, String.mk post]

/-- Python `s.split(',')[0]` (source line 38): the text before the first
comma, or all of `s` when it has none. -/
def firstTok (s : String) : String :=
  String.mk (splitCommaOnce s.data).1

/-- Python `s.lower()` on the ASCII range (source line 38). -/
def pyLower (s : String) : String :=
  String.mk (s.data.map Char.toLower)

/-- Python `s.upper()` on the ASCII range (source line 198). -/
def pyUpper (s : String) : String :=
  String.mk (s.data.map Char.toUpper)

/-- The pattern of `name.replace("_furniture", "")` (source line 258). -/
def furnPat : List Char := ['_', 'f', 'u', 'r', 'n', 'i', 't', 'u', 'r', 'e']

/-- Left-to-right non-overlapping removal of `furnPat`, fuelled by the input
length so the recursion is structural. -/
def replaceFurnFuel : Nat → List Char → List Char
  | 0, _ => []
  | _, [] => []
  | fuel + 1, c :: cs =>
    if furnPat.isPrefixOf (c :: cs) then replaceFurnFuel fuel (cs.drop 9)
    else c :: replaceFurnFuel fuel cs

/-- Python `name.replace("_furniture", "")` (source line 258): remove every
occurrence of `_furniture`, not only a trailing one. -/
def stripFurniture (s : String) : String :=
  String.mk (replaceFurnFuel s.data.length s.data)

/-- One inventory record: a model id and its raw category-list string
(source lines 43-46). -/
structure InvRec where
  id : String
  categories : String
deriving DecidableEq

/-- The global `INVENTORY` dict: lowercase primary category to record list
(source line 26), as an insertion-ordered association list. -/
abbrev Inventory := List (String × List InvRec)

/-- Lookup in the inventory dict. -/
def invGet (inv : Inventory) (k : String) : Option (List InvRec) :=
  match inv with
  | [] => none
  | (k1, v) :: rest => if k1 = k then some v else invGet rest k

/-- Python `k in INVENTORY` (source line 40). -/
def invHasKey (inv : Inventory) (k : String) : Bool :=
  (invGet inv k).isSome

/-- Keys of the inventory dict, in order. -/
def invKeys (inv : Inventory) : List String :=
  inv.map Prod.fst

/-- Well-formedness: a Python dict never holds two entries for one key. -/
def InvNodup (inv : Inventory) : Prop :=
  (invKeys inv).Nodup

/-- Source lines 40-46: create the category bucket when absent, then append
the record to it (a Python dict holds one slot per key, so appending to the
slot of `k` is replacing the first, unique, matching entry). -/
def addRec (inv : Inventory) (k : String) (r : InvRec) : Inventory :=
  match inv with
  | [] => [(k, [r])]
  | (k1, l) :: rest => if k1 = k then (k1, l ++ [r]) :: rest else (k1, l) :: addRec rest k r

/-- Source lines 33-46: one iteration of the CSV loop.  Strip the line, split
on the first comma; with exactly two parts, strip the id, strip then unquote
the category list, and file the record under the lowercased first category
token; otherwise do nothing. -/
def processLine (inv : Inventory) (line : String) : Inventory :=
  match pySplitFirst (pyStrip line) with
  | [p0, p1] =>
    let categories := pyStripQuotes (pyStrip p1)
    addRec inv (pyLower (firstTok categories)) { id := pyStrip p0, categories := categories }
  | _ => inv

/-- The CSV loop over all delivered lines (source lines 33-46). -/
def loadLines (inv : Inventory) (lines : List String) : Inventory :=
  lines.foldl processLine inv

/-- What the file collaborator delivers: all lines and a clean end, or some
prefix of lines followed by a raised failure (an unreadable file delivers no
lines at all: `failAfter [] e`). -/
inductive ReadOutcome where
  | ok (lines : List String)
  | failAfter (lines : List String) (err : String)

/-- Source lines 28-51: `load_inventory` runs the CSV loop inside
`try/except`, so a failure keeps everything built so far and is reported by
the `except` branch instead of propagating; the function always returns. -/
def load_inventory (inv : Inventory) : ReadOutcome → Inventory × Option String
  | ReadOutcome.ok lines => (loadLines inv lines, none)
  | ReadOutcome.failAfter lines e =>
      (loadLines inv lines, some ("[Inventory] Error loading: " ++ e))

/-- Total number of records across all categories (source line 48). -/
def recCount (inv : Inventory) : Nat :=
  (inv.map (fun p => p.2.length)).sum

/-- The tool names declared to the reasoning collaborator in `CLAUDE_TOOLS`
(source lines 57-173). -/
def CLAUDE_TOOL_NAMES : List String :=
  ["spawn_furniture", "delete_furniture", "scale_furniture", "modify_furniture"]

/-- Source lines 256-263: the tool-invocation normalizer.  Build
`{"action": name.replace("_furniture", ""), **args}` and then
`setdefault` the keys `quantity` to `1` and `scale` to `1.0`. -/
def normalizeToolCall (name : String) (args : Dict) : Dict :=
  dictSetdefault
    (dictSetdefault (dictMerge [("action", JValue.str (stripFurniture name))] args)
      "quantity" (JValue.int 1))
    "scale" (JValue.num 1)

/-- A content block of the collaborator reply: a tool invocation or text. -/
inductive RespBlock where
  | toolUse (name : String) (args : Dict)
  | text (t : String)

/-- Python `hasattr(block, "text")` plus the `.text` access (source line 270). -/
def blockText : RespBlock → Option String
  | RespBlock.text t => some t
  | RespBlock.toolUse _ _ => none

/-- Python `block.type == "tool_use"` (source line 249). -/
def isToolUseBlock : RespBlock → Bool
  | RespBlock.toolUse _ _ => true
  | RespBlock.text _ => false

/-- Source line 270: the first text block, if any. -/
def firstText : List RespBlock → Option String
  | [] => none
  | b :: rest =>
    match blockText b with
    | some t => some t
    | none => firstText rest

/-- The collaborator reply: its stop reason and its content blocks. -/
structure LLMResponse where
  stopReason : String
  content : List RespBlock

/-- Source lines 248-275: dispatch on the stop reason.  On `tool_use`, fetch
the first tool block and normalize it (with no such block, `next` raises
`StopIteration`, caught by the outer `except` into a 500).  Otherwise answer
conversationally with the first text block, defaulting to the empty string. -/
def handleLLMResponse (resp : LLMResponse) : Dict × Nat :=
  if resp.stopReason = "tool_use" then
    match resp.content.find? isToolUseBlock with
    | some (RespBlock.toolUse n args) => (normalizeToolCall n args, 200)
    | _ => ([("error", JValue.str "LLM Error: ")], 500)
  else
    ([("action", JValue.str "query"),
      ("response", JValue.str ((firstText resp.content).getD ""))], 200)

/-- Source line 200: one inventory line of the context excerpt. -/
def modelLine (m : InvRec) : String :=
  "  - ID: " ++ m.id ++ ", Types: " ++ m.categories ++ "\n"

/-- Source lines 198-200: one category block, capped at 15 records. -/
def categoryBlock (p : String × List InvRec) : String :=
  "\n" ++ pyUpper p.1 ++ ":\n" ++ String.join ((p.2.take 15).map modelLine)

/-- Source lines 196-200: the inventory context handed to the collaborator,
capped at the first 10 categories. -/
def buildInventoryContext (inv : Inventory) : String :=
  "\n\nAvailable Models:\n" ++ String.join ((inv.take 10).map categoryBlock)

/-- Source line 188: `not data or "command" not in data`, with `data` the
parsed JSON body (`none` when the framework delivered no JSON object). -/
def missingCommand : Option Dict → Bool
  | none => true
  | some d => d.isEmpty || !(dictHasKey d "command")

/-- Source line 191: `data.get("command", "")`, read as a string. -/
def cmdOf (d : Dict) : String :=
  match dictGet d "command" with
  | some (JValue.str s) => s
  | _ => ""

/-- Source lines 181-280: the `/api/process_command` handler.  The parsed
JSON body and the reasoning collaborator are parameters; the collaborator
receives the context built from the inventory and the user command and either
raises (`Except.error`, caught into a 500) or replies.  The inventory is
threaded through explicitly: the handler only reads it. -/
def process_command (inv : Inventory) (req : Option Dict)
    (oracle : String → String → Except String LLMResponse) : (Dict × Nat) × Inventory :=
  match req with
  | none => (([("error", JValue.str "No command provided")], 400), inv)
  | some d =>
    if d.isEmpty || !(dictHasKey d "command") then
      (([("error", JValue.str "No command provided")], 400), inv)
    else
      match oracle (buildInventoryContext inv) (cmdOf d) with
      | Except.error e => (([("error", JValue.str ("LLM Error: " ++ e))], 500), inv)
      | Except.ok resp => (handleLLMResponse resp, inv)

/-- Source lines 176-179: the `/ping` health endpoint. -/
def ping : Dict × Nat :=
  ([("status", JValue.str "ok"),
    ("message", JValue.str "LLM server is running (JSON mode)")], 200)

/-- Modelled from the spec wording of claim C5: remove exactly one leading
and one trailing quote, and only when both are present. -/
def stripOneQuotePair (s : String) : String :=
  if 2 ≤ s.data.length ∧ s.data.head? = some '"' ∧ s.data.getLast? = some '"' then
    String.mk (s.data.drop 1).dropLast
  else s

/-- Modelled from the spec wording of claims C1 and C5: remove `_furniture`
only when it is a suffix of the tool name. -/
def dropFurnitureSuffix (s : String) : String :=
  if furnPat.isSuffixOf s.data then String.mk (s.data.take (s.data.length - 10)) else s

/-- The grouping invariant of claim C3: every stored record sits under the
lowercased first element of its own category list. -/
def GoodInv (inv : Inventory) : Prop :=
  ∀ p ∈ inv, ∀ r ∈ p.2, pyLower (firstTok r.categories) = p.1

/-! ### Helper lemmas: dictionaries -/

theorem dictGet_append_of_some (d1 d2 : Dict) (k : String) (v : JValue)
    (h : dictGet d1 k = some v) :
    dictGet (d1 ++ d2) k = some v := by
  induction d1 with
  | nil => simp [dictGet] at h
  | cons p rest ih =>
    obtain ⟨k1, w⟩ := p
    by_cases h1 : k1 = k
    · subst h1
      simp [dictGet] at h
      simp [dictGet, h]
    · simp [dictGet, h1] at h
      simp [dictGet, h1, ih h]

theorem dictGet_append_of_none (d1 d2 : Dict) (k : String)
    (h : dictGet d1 k = none) :
    dictGet (d1 ++ d2) k = dictGet d2 k := by
  induction d1 with
  | nil => rfl
  | cons p rest ih =>
    obtain ⟨k1, w⟩ := p
    by_cases h1 : k1 = k
    · subst h1
      simp [dictGet] at h
    · simp [dictGet, h1] at h
      simp [dictGet, h1, ih h]

theorem dictGet_eq_none_of_not_mem (d : Dict) (k : String) (h : k ∉ dictKeys d) :
    dictGet d k = none := by
  induction d with
  | nil => rfl
  | cons p rest ih =>
    obtain ⟨k1, v⟩ := p
    simp only [dictKeys, List.map_cons, List.mem_cons, not_or] at h
    have h1 : ¬ k1 = k := fun hc => h.1 hc.symm
    simp [dictGet, h1, ih h.2]

theorem dictGet_insert_self (d : Dict) (k : String) (v : JValue) :
    dictGet (dictInsert d k v) k = some v := by
  induction d with
  | nil => simp [dictInsert, dictGet]
  | cons p rest ih =>
    obtain ⟨k1, w⟩ := p
    by_cases h1 : k1 = k
    · subst h1
      simp [dictInsert, dictGet]
    · simp [dictInsert, dictGet, h1, ih]

theorem dictGet_insert_ne (d : Dict) (k k1 : String) (v : JValue) (h : k1 ≠ k) :
    dictGet (dictInsert d k v) k1 = dictGet d k1 := by
  have h' : ¬ k = k1 := fun hc => h hc.symm
  induction d with
  | nil => simp [dictInsert, dictGet, h']
  | cons p rest ih =>
    obtain ⟨k2, w⟩ := p
    by_cases h2 : k2 = k
    · subst h2
      simp [dictInsert, dictGet, h']
    · by_cases h3 : k2 = k1
      · subst h3
        simp [dictInsert, dictGet, h2, ih]
      · simp [dictInsert, dictGet, h2, h3, ih]

theorem dictGet_setdefault_self (d : Dict) (k : String) (v : JValue)
    (h : dictGet d k = none) :
    dictGet (dictSetdefault d k v) k = some v := by
  have hk : ¬ dictHasKey d k = true := by simp [dictHasKey, h]
  unfold dictSetdefault
  rw [if_neg hk, dictGet_append_of_none d _ k h]
  simp [dictGet]

theorem dictGet_setdefault_of_some (d : Dict) (k k1 : String) (v : JValue) (w : JValue)
    (h : dictGet d k1 = some v) :
    dictGet (dictSetdefault d k w) k1 = some v := by
  unfold dictSetdefault
  by_cases hk : dictHasKey d k = true
  · rw [if_pos hk]
    exact h
  · rw [if_neg hk]
    exact dictGet_append_of_some d _ k1 v h

theorem dictGet_setdefault_ne (d : Dict) (k k1 : String) (w : JValue) (h : k1 ≠ k) :
    dictGet (dictSetdefault d k w) k1 = dictGet d k1 := by
  have h' : ¬ k = k1 := fun hc => h hc.symm
  unfold dictSetdefault
  by_cases hk : dictHasKey d k = true
  · rw [if_pos hk]
  · rw [if_neg hk]
    cases hv : dictGet d k1 with
    | some v => exact dictGet_append_of_some d _ k1 v hv
    | none =>
      rw [dictGet_append_of_none d _ k1 hv]
      simp [dictGet, h']

theorem dictGet_merge_of_none (base args : Dict) (k : String)
    (h : dictGet args k = none) :
    dictGet (dictMerge base args) k = dictGet base k := by
  induction args generalizing base with
  | nil => rfl
  | cons p rest ih =>
    obtain ⟨k1, v⟩ := p
    by_cases h1 : k1 = k
    · subst h1
      simp [dictGet] at h
    · simp only [dictGet, h1, if_false] at h
      show dictGet (dictMerge (dictInsert base k1 v) rest) k = dictGet base k
      rw [ih (dictInsert base k1 v) h, dictGet_insert_ne base k1 k v (fun hc => h1 hc.symm)]

theorem dictGet_merge_of_some (args : Dict) (k : String) (v : JValue)
    (hnd : NodupKeys args) (h : dictGet args k = some v) (base : Dict) :
    dictGet (dictMerge base args) k = some v := by
  induction args generalizing base with
  | nil => simp [dictGet] at h
  | cons p rest ih =>
    obtain ⟨k1, w⟩ := p
    simp only [NodupKeys, dictKeys, List.map_cons, List.nodup_cons] at hnd
    by_cases h1 : k1 = k
    · subst h1
      simp [dictGet] at h
      subst h
      show dictGet (dictMerge (dictInsert base k1 w) rest) k1 = some w
      rw [dictGet_merge_of_none (dictInsert base k1 w) rest k1
        (dictGet_eq_none_of_not_mem rest k1 hnd.1)]
      exact dictGet_insert_self base k1 w
    · simp only [dictGet, h1, if_false] at h
      exact ih hnd.2 h (dictInsert base k1 w)

/-! ### Helper lemmas: string splitting and stripping -/

theorem splitCommaOnce_of_no_comma (l : List Char) (h : ',' ∉ l) :
    splitCommaOnce l = (l, none) := by
  induction l with
  | nil => rfl
  | cons c cs ih =>
    simp only [List.mem_cons, not_or] at h
    have hc : ¬ c = ',' := fun hcc => h.1 hcc.symm
    simp [splitCommaOnce, hc, ih h.2]

theorem splitCommaOnce_append (pre post : List Char) (h : ',' ∉ pre) :
    splitCommaOnce (pre ++ ',' :: post) = (pre, some post) := by
  induction pre with
  | nil => simp [splitCommaOnce]
  | cons c cs ih =>
    simp only [List.mem_cons, not_or] at h
    have hc : ¬ c = ',' := fun hcc => h.1 hcc.symm
    simp [splitCommaOnce, hc, ih h.2]

theorem mem_of_mem_stripBoth (p : Char → Bool) (x : Char) (l : List Char)
    (h : x ∈ stripBoth p l) : x ∈ l := by
  unfold stripBoth stripEnd at h
  rw [List.mem_reverse] at h
  have h1 : x ∈ (l.dropWhile p).reverse := (List.dropWhile_sublist p).subset h
  rw [List.mem_reverse] at h1
  exact (List.dropWhile_sublist p).subset h1

/-! ### Helper lemmas: the inventory index -/

theorem recCount_addRec (inv : Inventory) (k : String) (r : InvRec) :
    recCount (addRec inv k r) = recCount inv + 1 := by
  induction inv with
  | nil => simp [addRec, recCount]
  | cons p rest ih =>
    obtain ⟨k1, l⟩ := p
    by_cases h1 : k1 = k
    · subst h1
      simp [addRec, recCount]
      omega
    · simp [addRec, recCount, h1] at ih ⊢
      omega

theorem GoodInv_addRec (inv : Inventory) (k : String) (r : InvRec)
    (h : GoodInv inv) (hk : pyLower (firstTok r.categories) = k) :
    GoodInv (addRec inv k r) := by
  induction inv with
  | nil =>
    intro p hp q hq
    simp [addRec] at hp
    subst hp
    simp at hq
    subst hq
    exact hk
  | cons p0 rest ih =>
    obtain ⟨k1, l⟩ := p0
    by_cases h1 : k1 = k
    · subst h1
      have hred : addRec ((k1, l) :: rest) k1 r = (k1, l ++ [r]) :: rest := by
        simp [addRec]
      rw [hred]
      intro p hp q hq
      rcases List.mem_cons.mp hp with hp1 | hp1
      · subst hp1
        rcases List.mem_append.mp hq with hq1 | hq1
        · exact h (k1, l) (List.mem_cons_self _ _) q hq1
        · rw [List.mem_singleton.mp hq1]
          exact hk
      · exact h p (List.mem_cons_of_mem _ hp1) q hq
    · have hred : addRec ((k1, l) :: rest) k r = (k1, l) :: addRec rest k r := by
        simp [addRec, h1]
      rw [hred]
      intro p hp q hq
      rcases List.mem_cons.mp hp with hp1 | hp1
      · subst hp1
        exact h (k1, l) (List.mem_cons_self _ _) q hq
      · exact ih (fun p2 hp2 => h p2 (List.mem_cons_of_mem _ hp2)) p hp1 q hq

theorem recCount_processLine (inv : Inventory) (line : String) :
    recCount (processLine inv line) = recCount inv + recCount (processLine [] line) := by
  unfold processLine
  rcases hs : pySplitFirst (pyStrip line) with _ | ⟨p0, rest⟩
  · simp [recCount]
  · rcases rest with _ | ⟨p1, rest2⟩
    · simp [recCount]
    · rcases rest2 with _ | _
      · simp only
        rw [recCount_addRec, recCount_addRec]
        simp [recCount]
      · simp [recCount]

theorem GoodInv_processLine (inv : Inventory) (line : String) (h : GoodInv inv) :
    GoodInv (processLine inv line) := by
  unfold processLine
  rcases hs : pySplitFirst (pyStrip line) with _ | ⟨p0, rest⟩
  · exact h
  · rcases rest with _ | ⟨p1, rest2⟩
    · exact h
    · rcases rest2 with _ | _
      · exact GoodInv_addRec inv _ _ h rfl
      · exact h

theorem recCount_loadLines (inv : Inventory) (lines : List String) :
    recCount (loadLines inv lines) = recCount inv + recCount (loadLines [] lines) := by
  induction lines generalizing inv with
  | nil => simp [loadLines, recCount]
  | cons l ls ih =>
    show recCount (loadLines (processLine inv l) ls) = _
    rw [ih (processLine inv l)]
    have h2 : recCount (loadLines [] (l :: ls)) =
        recCount (processLine [] l) + recCount (loadLines [] ls) := by
      show recCount (loadLines (processLine [] l) ls) = _
      rw [ih (processLine [] l)]
    rw [h2, recCount_processLine inv l]
    omega

theorem GoodInv_loadLines (inv : Inventory) (lines : List String) (h : GoodInv inv) :
    GoodInv (loadLines inv lines) := by
  induction lines generalizing inv with
  | nil => exact h
  | cons l ls ih => exact ih (processLine inv l) (GoodInv_processLine inv l h)

theorem processLine_of_no_comma (inv : Inventory) (line : String)
    (h : ',' ∉ line.data) :
    processLine inv line = inv := by
  have h2 : ',' ∉ (pyStrip line).data := fun hm =>
    h (mem_of_mem_stripBoth pyIsSpace ',' line.data hm)
  unfold processLine
  rw [show pySplitFirst (pyStrip line) = [String.mk (pyStrip line).data] from by
    unfold pySplitFirst
    rw [splitCommaOnce_of_no_comma _ h2]]

theorem processLine_of_split (inv : Inventory) (line : String) (pre post : List Char)
    (h : pyStrip line = String.mk (pre ++ ',' :: post)) (hpre : ',' ∉ pre) :
    processLine inv line =
      addRec inv (pyLower (firstTok (pyStripQuotes (pyStrip (String.mk post)))))
        { id := pyStrip (String.mk pre),
          categories := pyStripQuotes (pyStrip (String.mk post)) } := by
  unfold processLine
  rw [show pySplitFirst (pyStrip line) = [String.mk pre, String.mk post] from by
    unfold pySplitFirst
    rw [h]
    show (match splitCommaOnce (pre ++ ',' :: post) with
      | (pre, none) => [String.mk pre]
      | (pre, some post) => [String.mk pre, String.mk post]) = _
    rw [splitCommaOnce_append pre post hpre]]

/-! ### Claim theorems -/

/-- Claim C3, confirmed: in the inventory built from any CSV input, every
record is grouped under the key equal to the lowercased first
comma-separated element of that record's `categories` string — the storing
rule of source line 38 establishes the invariant, and it is preserved over
the whole load. -/
theorem C3_theorem (lines : List String) (p : String × List InvRec)
    (hp : p ∈ loadLines [] lines) (r : InvRec) (hr : r ∈ p.2) :
    pyLower (firstTok r.categories) = p.1 :=
  GoodInv_loadLines [] lines (fun q hq => absurd hq (List.not_mem_nil q)) p hp r hr

/-- Witness for C3 on the spec's own scenario row. -/
theorem C3_witness :
    pyLower (firstTok (InvRec.categories { id := "abc123", categories := "Chair,OfficeChair" }))
      = "chair" :=
  C3_theorem ["abc123,\"Chair,OfficeChair\""]
    ("chair", [{ id := "abc123", categories := "Chair,OfficeChair" }]) (by decide)
    { id := "abc123", categories := "Chair,OfficeChair" } (by decide)

/-- Claim C4, confirmed: a line with no comma strips and splits into a single
part (`split(',', 1)` returns one part exactly when the stripped line has no
comma), so the `len(parts) == 2` guard of source line 35 skips it: the
inventory, its record count and its category count are unchanged. -/
theorem C4_theorem (inv : Inventory) (line : String) (h : ',' ∉ line.data) :
    processLine inv line = inv ∧
    recCount (processLine inv line) = recCount inv ∧
    (processLine inv line).length = inv.length := by
  have he := processLine_of_no_comma inv line h
  exact ⟨he, by rw [he], by rw [he]⟩

/-- Witness for C4: the empty line is skipped silently. -/
theorem C4_witness :
    processLine [("chair", [{ id := "a", categories := "Chair" }])] "" =
      [("chair", [{ id := "a", categories := "Chair" }])] :=
  (C4_theorem [("chair", [{ id := "a", categories := "Chair" }])] "" (by decide)).1

/-- Counterexample to claim C5 as stated: on the row `abc,""x""` the code
(Python `strip('"')`, source line 37) removes both leading and both trailing
quote characters and stores categories `x`, whereas removing only a single
surrounding pair, as the claim words it, would leave `"x"`. -/
theorem C5_counterexample :
    processLine [] "abc,\"\"x\"\"" = [("x", [{ id := "abc", categories := "x" }])] ∧
    stripOneQuotePair (pyStrip "\"\"x\"\"") = "\"x\"" ∧
    ("x" : String) ≠ "\"x\"" := by
  decide

/-- Claim C5, amended: for every line whose stripped form is
`pre ++ "," ++ post` with no comma in `pre`, the stored category-list field
is `post` trimmed of whitespace and with every leading and trailing quote
character removed (Python `strip('"')` semantics, so unpaired surrounding
quotes are removed too), the id is `pre` trimmed, and the record is filed
under the lowercased first category token. -/
theorem C5_theorem (inv : Inventory) (line : String) (pre post : List Char)
    (h : pyStrip line = String.mk (pre ++ ',' :: post)) (hpre : ',' ∉ pre) :
    processLine inv line =
      addRec inv (pyLower (firstTok (pyStripQuotes (pyStrip (String.mk post)))))
        { id := pyStrip (String.mk pre),
          categories := pyStripQuotes (pyStrip (String.mk post)) } :=
  processLine_of_split inv line pre post h hpre

/-- Witness for C5 on the spec's scenario row `abc123,"Chair,OfficeChair"`:
the entry lands under key `chair` with categories `Chair,OfficeChair`. -/
theorem C5_witness :
    processLine [] "abc123,\"Chair,OfficeChair\"" =
      [("chair", [{ id := "abc123", categories := "Chair,OfficeChair" }])] := by
  have h := C5_theorem [] "abc123,\"Chair,OfficeChair\"" ("abc123".data)
    ("\"Chair,OfficeChair\"".data) (by decide) (by decide)
  rw [h]
  decide

/-- Claim C7, confirmed: when the CSV resource is unreadable the file
collaborator delivers no lines before raising, so the `except` branch of
source lines 49-50 leaves the index empty, reports the condition, and the
loader returns instead of raising; the `/ping` endpoint (and every other
handler) is unaffected. -/
theorem C7_theorem (e : String) :
    (load_inventory [] (ReadOutcome.failAfter [] e)).1 = [] ∧
    ((load_inventory [] (ReadOutcome.failAfter [] e)).2).isSome = true ∧
    ping.2 = 200 :=
  ⟨rfl, rfl, rfl⟩

/-- Claim C10, confirmed: `load_inventory` folds into the existing global
index without clearing it, a mid-read failure keeps every record parsed
before it, and re-running the loader over the same lines adds the same
number of records again instead of rebuilding. -/
theorem C10_theorem (inv0 : Inventory) (lines : List String) (e : String) :
    (load_inventory inv0 (ReadOutcome.failAfter lines e)).1 = loadLines inv0 lines ∧
    recCount (loadLines inv0 lines) = recCount inv0 + recCount (loadLines [] lines) ∧
    recCount (loadLines (loadLines inv0 lines) lines) =
      recCount inv0 + 2 * recCount (loadLines [] lines) := by
  refine ⟨rfl, recCount_loadLines inv0 lines, ?_⟩
  rw [recCount_loadLines (loadLines inv0 lines) lines, recCount_loadLines inv0 lines]
  ring

/-- Counterexample to claim C1 as stated: when the argument bag itself holds
the key `action`, the `**function_args` unpacking of source lines 257-260
writes the bag's value over the one computed from the tool name, so the
`action` field is `fly`, not `spawn`. -/
theorem C1_counterexample :
    dictGet (normalizeToolCall "spawn_furniture" [("action", JValue.str "fly")]) "action" =
      some (JValue.str "fly") ∧
    stripFurniture "spawn_furniture" = "spawn" ∧
    JValue.str "fly" ≠ JValue.str "spawn" := by
  decide

/-- Claim C1, amended: for every declared tool name and every argument bag
that does not itself contain the key `action`, the normalized result has
`action` equal to the tool name with the `_furniture` suffix removed (for the
declared names the code's removal of every occurrence coincides with suffix
removal), contains every key/value pair of the bag verbatim, and maps
`quantity` to `1` and `scale` to `1.0` exactly when those keys are absent
from the bag, never overwriting present ones. -/
theorem C1_theorem (name : String) (hname : name ∈ CLAUDE_TOOL_NAMES) (args : Dict)
    (hnd : NodupKeys args) (hact : dictGet args "action" = none) :
    dictGet (normalizeToolCall name args) "action" =
        some (JValue.str (stripFurniture name)) ∧
    stripFurniture name = dropFurnitureSuffix name ∧
    (∀ k v, dictGet args k = some v → dictGet (normalizeToolCall name args) k = some v) ∧
    (dictGet args "quantity" = none →
      dictGet (normalizeToolCall name args) "quantity" = some (JValue.int 1)) ∧
    (∀ v, dictGet args "quantity" = some v →
      dictGet (normalizeToolCall name args) "quantity" = some v) ∧
    (dictGet args "scale" = none →
      dictGet (normalizeToolCall name args) "scale" = some (JValue.num 1)) ∧
    (∀ v, dictGet args "scale" = some v →
      dictGet (normalizeToolCall name args) "scale" = some v) := by
  refine ⟨?_, ?_, ?_, ?_, ?_, ?_, ?_⟩
  · have hm : dictGet (dictMerge [("action", JValue.str (stripFurniture name))] args)
        "action" = some (JValue.str (stripFurniture name)) := by
      rw [dictGet_merge_of_none _ args "action" hact]
      simp [dictGet]
    exact dictGet_setdefault_of_some _ _ _ _ _ (dictGet_setdefault_of_some _ _ _ _ _ hm)
  · simp only [CLAUDE_TOOL_NAMES, List.mem_cons, List.not_mem_nil, or_false] at hname
    rcases hname with h | h | h | h <;> subst h <;> decide
  · intro k v hkv
    exact dictGet_setdefault_of_some _ _ _ _ _
      (dictGet_setdefault_of_some _ _ _ _ _ (dictGet_merge_of_some args k v hnd hkv _))
  · intro hq
    have hm : dictGet (dictMerge [("action", JValue.str (stripFurniture name))] args)
        "quantity" = none := by
      rw [dictGet_merge_of_none _ args "quantity" hq]
      simp [dictGet, show ("action" : String) ≠ "quantity" by decide]
    exact dictGet_setdefault_of_some _ _ _ _ _
      (dictGet_setdefault_self _ "quantity" (JValue.int 1) hm)
  · intro v hv
    exact dictGet_setdefault_of_some _ _ _ _ _
      (dictGet_setdefault_of_some _ _ _ _ _ (dictGet_merge_of_some args "quantity" v hnd hv _))
  · intro hs
    have hm : dictGet (dictMerge [("action", JValue.str (stripFurniture name))] args)
        "scale" = none := by
      rw [dictGet_merge_of_none _ args "scale" hs]
      simp [dictGet, show ("action" : String) ≠ "scale" by decide]
    have h2 : dictGet (dictSetdefault
        (dictMerge [("action", JValue.str (stripFurniture name))] args)
        "quantity" (JValue.int 1)) "scale" = none := by
      rw [dictGet_setdefault_ne _ "quantity" "scale" _ (by decide)]
      exact hm
    exact dictGet_setdefault_self _ "scale" (JValue.num 1) h2
  · intro v hv
    exact dictGet_setdefault_of_some _ _ _ _ _
      (dictGet_setdefault_of_some _ _ _ _ _ (dictGet_merge_of_some args "scale" v hnd hv _))

/-- Witness for C1 on the spec's scenario tool call
`spawn_furniture({objectName, modelId, color})`. -/
theorem C1_witness :
    dictGet (normalizeToolCall "spawn_furniture"
      [("objectName", JValue.str "chair"), ("modelId", JValue.str "abc123"),
       ("color", JValue.str "blue")]) "action" = some (JValue.str "spawn") ∧
    dictGet (normalizeToolCall "spawn_furniture"
      [("objectName", JValue.str "chair"), ("modelId", JValue.str "abc123"),
       ("color", JValue.str "blue")]) "color" = some (JValue.str "blue") ∧
    dictGet (normalizeToolCall "spawn_furniture"
      [("objectName", JValue.str "chair"), ("modelId", JValue.str "abc123"),
       ("color", JValue.str "blue")]) "quantity" = some (JValue.int 1) ∧
    dictGet (normalizeToolCall "spawn_furniture"
      [("objectName", JValue.str "chair"), ("modelId", JValue.str "abc123"),
       ("color", JValue.str "blue")]) "scale" = some (JValue.num 1) := by
  have h := C1_theorem "spawn_furniture" (by decide)
    [("objectName", JValue.str "chair"), ("modelId", JValue.str "abc123"),
     ("color", JValue.str "blue")] (by decide) (by decide)
  refine ⟨?_, h.2.2.1 "color" (JValue.str "blue") (by decide),
    h.2.2.2.1 (by decide), h.2.2.2.2.2.1 (by decide)⟩
  rw [h.1]
  decide

/-- Claim C2, confirmed: when the stop reason is not `tool_use`, the handler
of source lines 268-275 returns `action = "query"` with the collaborator's
first text block carried verbatim in `response`. -/
theorem C2_theorem (resp : LLMResponse) (t : String)
    (hstop : resp.stopReason ≠ "tool_use") (ht : firstText resp.content = some t) :
    handleLLMResponse resp =
      ([("action", JValue.str "query"), ("response", JValue.str t)], 200) := by
  unfold handleLLMResponse
  rw [if_neg hstop, ht]
  rfl

/-- Witness for C2 on the spec's scenario free-text reply. -/
theorem C2_witness :
    handleLLMResponse
        (LLMResponse.mk "end_turn"
          [RespBlock.text "I can spawn chairs, tables, and sofas."]) =
      ([("action", JValue.str "query"),
        ("response", JValue.str "I can spawn chairs, tables, and sofas.")], 200) :=
  C2_theorem _ "I can spawn chairs, tables, and sofas." (by decide) rfl

/-- Reduction of the handler on a present body that fails the guard of
source line 188. -/
theorem process_command_some_bad (inv : Inventory) (d : Dict)
    (o : String → String → Except String LLMResponse)
    (hc : (d.isEmpty || !(dictHasKey d "command")) = true) :
    process_command inv (some d) o =
      (([("error", JValue.str "No command provided")], 400), inv) := by
  simp [process_command, hc]

/-- Reduction of the handler on a present body that passes the guard of
source line 188: the collaborator decides the outcome. -/
theorem process_command_some_good (inv : Inventory) (d : Dict)
    (o : String → String → Except String LLMResponse)
    (hc : (d.isEmpty || !(dictHasKey d "command")) = false) :
    process_command inv (some d) o =
      (match o (buildInventoryContext inv) (cmdOf d) with
        | Except.error e => (([("error", JValue.str ("LLM Error: " ++ e))], 500), inv)
        | Except.ok resp => (handleLLMResponse resp, inv)) := by
  simp [process_command, hc]

/-- Claim C6, confirmed: a missing JSON body or a body without the key
`command` yields status 400 with an `error` body, and the result is the same
whatever the reasoning collaborator would answer (it is never consulted,
source lines 186-189); a raised failure of the collaborator call yields
status 500 with an `error` body (source lines 277-280).  In both cases the
handler returns a value instead of propagating the failure, and it leaves
the inventory untouched, so no other request is affected. -/
theorem C6_theorem (inv : Inventory) (d : Dict)
    (o o2 : String → String → Except String LLMResponse) (e : String) :
    (∀ req, missingCommand req = true →
      process_command inv req o = process_command inv req o2 ∧
      process_command inv req o =
        (([("error", JValue.str "No command provided")], 400), inv)) ∧
    (missingCommand (some d) = false →
      o (buildInventoryContext inv) (cmdOf d) = Except.error e →
      process_command inv (some d) o =
        (([("error", JValue.str ("LLM Error: " ++ e))], 500), inv)) := by
  constructor
  · intro req hreq
    cases req with
    | none => exact ⟨rfl, rfl⟩
    | some d2 =>
      have hcond : (d2.isEmpty || !(dictHasKey d2 "command")) = true := hreq
      rw [process_command_some_bad inv d2 o hcond, process_command_some_bad inv d2 o2 hcond]
      exact ⟨rfl, rfl⟩
  · intro hm ho
    have hcond : (d.isEmpty || !(dictHasKey d "command")) = false := hm
    rw [process_command_some_good inv d o hcond, ho]

/-- Witness for C6: a body without `command` gives a 400 regardless of the
collaborator, and a raising collaborator gives a 500; neither kills the
handler. -/
theorem C6_witness :
    process_command [] none (fun _ _ => Except.error "boom") =
      (([("error", JValue.str "No command provided")], 400), []) ∧
    process_command [] (some [("command", JValue.str "add a chair")])
        (fun _ _ => Except.error "boom") =
      (([("error", JValue.str "LLM Error: boom")], 500), []) := by
  have h := C6_theorem [] [("command", JValue.str "add a chair")]
    (fun _ _ => Except.error "boom")
    (fun _ _ => Except.ok (LLMResponse.mk "end_turn" [])) "boom"
  refine ⟨(h.1 none rfl).2, ?_⟩
  rw [h.2 (by decide) rfl]
  decide

/-- Claim C8, confirmed: the handler leaves the inventory exactly as it was,
and re-running it on the post-state with the same request and collaborator
yields the identical response and state: with the collaborator decision
fixed, normalization is a deterministic, side-effect-free function of its
inputs. -/
theorem C8_theorem (inv : Inventory) (req : Option Dict)
    (o : String → String → Except String LLMResponse) :
    (process_command inv req o).2 = inv ∧
    process_command (process_command inv req o).2 req o = process_command inv req o := by
  have hst : (process_command inv req o).2 = inv := by
    cases req with
    | none => rfl
    | some d =>
      by_cases hc : (d.isEmpty || !(dictHasKey d "command")) = true
      · rw [process_command_some_bad inv d o hc]
      · rw [process_command_some_good inv d o (by
          cases hb : (d.isEmpty || !(dictHasKey d "command")) with
          | true => exact absurd hb hc
          | false => rfl)]
        cases ho : o (buildInventoryContext inv) (cmdOf d) <;> rfl
  exact ⟨hst, by rw [hst]⟩

/-- Claim C9, confirmed: the `**function_args` unpacking of source lines
257-260 is merged over the computed `action` entry, so a key `action` in the
argument bag overrides the action derived from the tool name. -/
theorem C9_theorem (name : String) (args : Dict) (v : JValue)
    (hnd : NodupKeys args) (hv : dictGet args "action" = some v) :
    dictGet (normalizeToolCall name args) "action" = some v := by
  unfold normalizeToolCall
  exact dictGet_setdefault_of_some _ _ _ _ _
    (dictGet_setdefault_of_some _ _ _ _ _ (dictGet_merge_of_some args "action" v hnd hv _))

/-- Witness for C9: an explicit `action` argument wins over the tool name. -/
theorem C9_witness :
    dictGet (normalizeToolCall "delete_furniture" [("action", JValue.str "fly")]) "action" =
      some (JValue.str "fly") :=
  C9_theorem "delete_furniture" [("action", JValue.str "fly")] (JValue.str "fly")
    (by decide) (by decide)
